import Mathlib

/-!
Verification of the OCI image-analysis repository: a shallow embedding of
the event-driven ingestion function (vision_function function handler) and of the
upload/viewer web service (app), with theorems settling the frozen claims.

External services (object storage, vision inference, the SODA document
store, the secrets vault) are modelled as environment records holding the
outcome each call would produce; the embedded code consumes those outcomes
exactly where the source performs the call, and every externally visible
mutating call is recorded in an action trace.
-/

/-- JSON-like values, with rational numbers standing in for the numeric
payloads (only shape and exact arithmetic on the vision coordinates matter
to the claims, never floating-point rounding). -/
inductive Json where
  | str (s : String)
  | num (q : ℚ)
  | arr (elems : List Json)
  | obj (fields : List (String × Json))

/-- First value bound to a key in an object; none on non-objects. -/
def Json.lookup (k : String) : Json → Option Json
  | .obj fs => List.lookup k fs
  | _ => none

/-- The keys of an object, in order; empty on non-objects. -/
def Json.fieldNames : Json → List String
  | .obj fs => fs.map Prod.fst
  | _ => []

/-- Whether a value is a JSON array. -/
def Json.isArr : Json → Bool
  | .arr _ => true
  | _ => false

/-! ## Event payload model (function handler input)

Dictionary lookups with a default, as in the source, are modelled by
Option fields read with getD: an absent key is none. An absent data or
additionalDetails object behaves as an empty dictionary, i.e. a record
whose fields are all none. -/

structure AdditionalDetails where
  objectName : Option String
  bucketName : Option String
  namespaceName : Option String
deriving DecidableEq

structure EventData where
  additionalDetails : AdditionalDetails
  objectName : Option String
  resourceName : Option String
  resourceId : Option String
deriving DecidableEq

structure Event where
  eventType : Option String
  data : EventData
  resourceName : Option String
  objectName : Option String
  resourceId : Option String
deriving DecidableEq

def eventTypeCreateObject : String := "com.oraclecloud.objectstorage.createobject"

/-- The five candidate locations for the object name, in source order. -/
def possible_names (e : Event) : List String :=
  [ e.data.additionalDetails.objectName.getD ""
  , e.data.objectName.getD ""
  , e.data.resourceName.getD ""
  , e.resourceName.getD ""
  , e.objectName.getD "" ]

/-- Python: data_info.get resourceId or body.get resourceId (first
non-empty wins, as with the or on strings). -/
def resource_id_of (e : Event) : String :=
  let r := e.data.resourceId.getD ""
  if r ≠ "" then r else e.resourceId.getD ""

/-- Python truthiness of a list of strings: some element is non-empty. -/
def pythonAnyStr (l : List String) : Bool :=
  l.any fun n => n != ""

/-- Python split on a single separator character, over the character
list: every occurrence separates, empty pieces are kept. -/
def pySplitChars (sep : Char) : List Char → List (List Char)
  | [] => [[]]
  | c :: rest =>
    match pySplitChars sep rest with
    | [] => [[]]
    | h :: t => if c == sep then [] :: h :: t else (c :: h) :: t

/-- Python str.split with a one-character separator. -/
def pySplit (sep : Char) (s : String) : List String :=
  (pySplitChars sep s.data).map String.mk

/-- Python str.strip: drop whitespace from both ends. -/
def pyStripChars (s : List Char) : List Char :=
  ((s.dropWhile Char.isWhitespace).reverse.dropWhile Char.isWhitespace).reverse

/-- Python str.strip on strings. -/
def pyStrip (s : String) : String :=
  String.mk (pyStripChars s.data)

/-- The resourceId parse of the source: split on slash, require at least
six parts and part 4 equal to o, and take part 5. -/
def parse_object_from_resource_id (rid : String) : Option String :=
  let parts := pySplit '/' rid
  if 6 ≤ parts.length ∧ parts.getD 4 "" = "o" then some (parts.getD 5 "") else none

/-- The candidate list after the conditional resourceId append. -/
def candidate_names (e : Event) : List String :=
  let base := possible_names e
  let rid := resource_id_of e
  if rid ≠ "" ∧ pythonAnyStr base = false then
    match parse_object_from_resource_id rid with
    | some s => base ++ [s]
    | none => base
  else base

/-- The selection loop: first candidate that is non-empty and does not
strip to empty, taken stripped. -/
def firstNonBlank : List String → String
  | [] => ""
  | n :: rest => if n ≠ "" ∧ pyStrip n ≠ "" then pyStrip n else firstNonBlank rest

def object_name_of (e : Event) : String :=
  firstNonBlank (candidate_names e)

def bucket_name_of (e : Event) : String :=
  e.data.additionalDetails.bucketName.getD ""

def namespace_of (e : Event) : String :=
  e.data.additionalDetails.namespaceName.getD ""

/-! ## Vision result model and normalization -/

structure NormalizedVertex where
  x : ℚ
  y : ℚ
deriving DecidableEq

structure BoundingPolygon where
  normalizedVertices : List NormalizedVertex
deriving DecidableEq

structure ImageObject where
  name : String
  confidence : ℚ
  boundingPolygon : BoundingPolygon
deriving DecidableEq

/-- Normalization of one detected object into its document entry; a
missing vertex 0 or 2 is the IndexError the source would raise inside the
analyze try block. -/
def normalizeObject (o : ImageObject) : Except String Json :=
  match o.boundingPolygon.normalizedVertices.get? 0,
        o.boundingPolygon.normalizedVertices.get? 2 with
  | some v0, some v2 =>
      .ok (.obj
        [ ("name", .str o.name)
        , ("confidence", .num o.confidence)
        , ("bounding_box", .obj
            [ ("left", .num v0.x)
            , ("top", .num v0.y)
            , ("width", .num |v2.x - v0.x|)
            , ("height", .num |v2.y - v0.y|) ]) ])
  | _, _ => .error "IndexError"

/-- The per-object loop of the source, aborting on the first raised
exception. -/
def normalizeAll : List ImageObject → Except String (List Json)
  | [] => .ok []
  | o :: rest =>
    match normalizeObject o with
    | .error e => .error e
    | .ok j =>
      match normalizeAll rest with
      | .error e => .error e
      | .ok js => .ok (j :: js)

/-! ## Document-store model (SODA over REST) -/

structure KeyColumn where
  name : String
  sqlType : String
  maxLength : Nat
  assignmentMethod : String
deriving DecidableEq

structure ContentColumn where
  name : String
  sqlType : String
  jsonFormat : String
deriving DecidableEq

structure CollectionMetadata where
  schemaName : String
  tableName : String
  keyColumn : KeyColumn
  contentColumn : ContentColumn
  versionColumnName : String
  versionColumnMethod : String
  lastModifiedColumnName : String
  creationTimeColumnName : String
deriving DecidableEq

/-- The fixed schema the source sends when creating the collection. -/
def collection_metadata : CollectionMetadata :=
  { schemaName := "ADMIN"
  , tableName := "IMAGE_ANALYSIS"
  , keyColumn :=
    { name := "ID", sqlType := "VARCHAR2", maxLength := 255, assignmentMethod := "UUID" }
  , contentColumn :=
    { name := "JSON_DOCUMENT", sqlType := "BLOB", jsonFormat := "OSON" }
  , versionColumnName := "VERSION"
  , versionColumnMethod := "UUID"
  , lastModifiedColumnName := "LAST_MODIFIED"
  , creationTimeColumnName := "CREATED_ON" }

/-- Externally visible calls made by the function handler. -/
inductive FnAction where
  | visionAnalyze (namespaceName bucket obj : String)
  | createCollection (meta : CollectionMetadata)
  | insertDoc (doc : Json)

/-- Outcomes of the document-store HTTP calls: ok status, or error for a
raised exception anywhere in the request (network failure, body decode). -/
structure DbEnv where
  probeStatus : Except String Nat
  createStatus : Except String Nat
  insertStatus : Except String Nat

/-- The ensure-collection step of the function: probe the collection and
on 404 create it with the fixed schema; any other probe status, and any
raised exception, yields false. -/
def ensure_collection_exists (env : DbEnv) : Bool × List FnAction :=
  match env.probeStatus with
  | .error _ => (false, [])
  | .ok s =>
    if s = 200 then (true, [])
    else if s = 404 then
      match env.createStatus with
      | .error _ => (false, [.createCollection collection_metadata])
      | .ok c => (c == 200 || c == 201, [.createCollection collection_metadata])
    else (false, [])

/-- The document the source assembles before the insert; now is the
current UTC time rendered by isoformat, to which the source appends Z. -/
def mkDocument (image_name bucket_name now : String) (analysis_results : Json) : Json :=
  .obj
    [ ("image_name", .str image_name)
    , ("bucket_name", .str bucket_name)
    , ("timestamp", .str (now ++ "Z"))
    , ("analysis_results", analysis_results) ]

/-- Store step: ensure the collection, then POST the document; true only
on insert status 201. -/
def store_analysis_result_via_rest (image_name bucket_name : String)
    (analysis_results : Json) (env : DbEnv) (now : String) : Bool × List FnAction :=
  let ec := ensure_collection_exists env
  if ec.1 = false then (false, ec.2)
  else
    let doc := mkDocument image_name bucket_name now analysis_results
    match env.insertStatus with
    | .error _ => (false, ec.2 ++ [.insertDoc doc])
    | .ok s => (s == 201, ec.2 ++ [.insertDoc doc])

/-- Handler outcome: the single terminal response of one invocation. -/
inductive Outcome where
  | ignored
  | success (image_name bucket_name : String) (objects_found : Nat)
  | clientError (msg : String)
  | serverError (msg : String)
deriving DecidableEq

/-- HTTP status of an outcome (200 is the default status of the response
constructor in the source). -/
def Outcome.status : Outcome → Nat
  | .ignored => 200
  | .success _ _ _ => 200
  | .clientError _ => 400
  | .serverError _ => 500

/-- Environment of one handler invocation: credentials as resolved after
the vault step (empty string for unset), and the outcome each external
call would produce. -/
structure FnEnv where
  dbUsername : String
  dbPassword : String
  ociInit : Except String Unit
  visionCall : Except String (List ImageObject)
  db : DbEnv
  now : String

/-- The function handler: none stands for an unparseable JSON payload
(json.loads raises, caught by the outermost except). -/
def handler (payload : Option Event) (env : FnEnv) : Outcome × List FnAction :=
  match payload with
  | none => (.serverError "Internal function error", [])
  | some body =>
    if body.eventType.getD "" ≠ eventTypeCreateObject then (.ignored, [])
    else
      let object_name := object_name_of body
      let bucket_name := bucket_name_of body
      if object_name = "" ∨ bucket_name = "" then
        (.clientError "Missing object information", [])
      else if env.dbUsername = "" ∨ env.dbPassword = "" then
        (.serverError "Database credentials not configured", [])
      else
        match env.ociInit with
        | .error _ => (.serverError "Failed to initialize OCI clients", [])
        | .ok _ =>
          match env.visionCall with
          | .error _ =>
            (.serverError "Failed to analyze image",
             [.visionAnalyze (namespace_of body) bucket_name object_name])
          | .ok objs =>
            match normalizeAll objs with
            | .error _ =>
              (.serverError "Failed to analyze image",
               [.visionAnalyze (namespace_of body) bucket_name object_name])
            | .ok entries =>
              let ar := Json.obj [("objects", Json.arr entries)]
              let st := store_analysis_result_via_rest object_name bucket_name ar env.db env.now
              if st.1 then
                (.success object_name bucket_name entries.length,
                 .visionAnalyze (namespace_of body) bucket_name object_name :: st.2)
              else
                (.serverError "Failed to store analysis results",
                 .visionAnalyze (namespace_of body) bucket_name object_name :: st.2)

/-! ## Upload/viewer service model (app side) -/

/-- Externally visible mutating calls of the web service. -/
inductive AppAction where
  | putObject (name : String)
  | deleteObject (name : String)
  | deleteDoc (id : String)
deriving DecidableEq

def allowed_extensions : List (List Char) :=
  ["png".data, "jpg".data, "jpeg".data, "gif".data]

/-- The suffix of a character list after its last dot, i.e. the
rsplit-once-on-dot tail of the source. -/
def extAfterLastDot (f : List Char) : List Char :=
  (f.reverse.takeWhile fun c => c != '.').reverse

/-- The extension check of the source: the filename contains a dot and
the lowercased suffix after the last dot is in the allow-list. -/
def allowed_file (filename : String) : Bool :=
  decide ('.' ∈ filename.data) &&
    decide ((extAfterLastDot filename.data).map Char.toLower ∈ allowed_extensions)

/-- Upload request: whether the multipart field file is present, and the
client-supplied filename. -/
structure UploadRequest where
  hasFilePart : Bool
  filename : String

/-- Upload environment: whether the storage client and namespace were
initialized, the outcome of a put call, and the external sanitizer
(werkzeug secure-filename, a black box to this repository). -/
structure UploadEnv where
  storageReady : Bool
  putObjectResult : Except String Unit
  secureFilename : String → String

/-- The distinct user-visible flash messages of the upload route. -/
inductive UploadMsg where
  | noFilePart
  | noSelectedFile
  | uploadedOk (name : String)
  | clientNotInitialized
  | uploadError
  | invalidFileType
deriving DecidableEq

/-- The upload route: validate, sanitize, store; every branch flashes one
message, and put-object is attempted only on the accepted path with an
initialized client. -/
def upload_file (req : UploadRequest) (env : UploadEnv) : UploadMsg × List AppAction :=
  if req.hasFilePart = false then (.noFilePart, [])
  else if req.filename = "" then (.noSelectedFile, [])
  else if allowed_file req.filename then
    let fn := env.secureFilename req.filename
    if env.storageReady then
      match env.putObjectResult with
      | .ok _ => (.uploadedOk fn, [.putObject fn])
      | .error _ => (.uploadError, [.putObject fn])
    else (.clientNotInitialized, [])
  else (.invalidFileType, [])

/-! ## Deletion model -/

/-- The analysis documents the store returns when listed, reduced to the
fields the delete route inspects. -/
structure AnalysisDoc where
  id : String
  image_name : String
deriving DecidableEq

/-- Environment of one delete request: storage client state, outcome of
the storage delete, document-store credentials, outcome of the listing
call, the stored documents, and per-id outcome of a document delete. -/
structure DeleteEnv where
  storageReady : Bool
  deleteObjectResult : Except String Unit
  dbCreds : Bool
  listStatus : Except String Nat
  docs : List AnalysisDoc
  deleteDocStatus : String → Except String Nat

/-- The per-id delete loop: count statuses 200 and 204 as deleted; a
raised exception aborts the loop (and the whole function returns zero). -/
def deleteDocsLoop (env : DeleteEnv) : List String → Nat → Except String Nat × List AppAction
  | [], acc => (.ok acc, [])
  | i :: rest, acc =>
    match env.deleteDocStatus i with
    | .error e => (.error e, [.deleteDoc i])
    | .ok s =>
      let acc2 := if s = 200 ∨ s = 204 then acc + 1 else acc
      let r := deleteDocsLoop env rest acc2
      (r.1, .deleteDoc i :: r.2)

/-- Delete every stored document whose image name equals the filename;
returns the count of successful deletions, zero on missing credentials,
non-200 listing, or any raised exception. -/
def delete_analysis_by_filename (filename : String) (env : DeleteEnv) : Nat × List AppAction :=
  if env.dbCreds = false then (0, [])
  else
    match env.listStatus with
    | .error _ => (0, [])
    | .ok s =>
      if s = 200 then
        let ids := (env.docs.filter fun d => d.image_name == filename).map AnalysisDoc.id
        match deleteDocsLoop env ids 0 with
        | (.ok n, acts) => (n, acts)
        | (.error _, acts) => (0, acts)
      else (0, [])

/-- The distinct user-visible flash messages of the delete route. -/
inductive DeleteMsg where
  | deletedBoth (n : Nat)
  | deletedStorageNoRecords
  | deletedDbOnly (n : Nat)
  | couldNotFullyDelete
  | errorDeleting
deriving DecidableEq

/-- The feedback selection at the end of the delete route. -/
def deleteFeedback (storageDeleted : Bool) (n : Nat) : DeleteMsg :=
  if storageDeleted = true ∧ 0 < n then .deletedBoth n
  else if storageDeleted = true ∧ n = 0 then .deletedStorageNoRecords
  else if storageDeleted = false ∧ 0 < n then .deletedDbOnly n
  else .couldNotFullyDelete

/-- The delete route: delete from storage first when the client is
initialized; a raised storage exception jumps to the except branch, so
the document deletion is then never attempted. -/
def delete_file (filename : String) (env : DeleteEnv) : DeleteMsg × List AppAction :=
  if env.storageReady then
    match env.deleteObjectResult with
    | .error _ => (.errorDeleting, [.deleteObject filename])
    | .ok _ =>
      let d := delete_analysis_by_filename filename env
      (deleteFeedback true d.1, .deleteObject filename :: d.2)
  else
    let d := delete_analysis_by_filename filename env
    (deleteFeedback false d.1, d.2)

/-! ## Results-listing model -/

/-- Environment for the results queries: credentials, document-store
outcomes for the ensure-collection step, outcome of the listing GET, and
the listed items as pairs of id and document fields. -/
structure AppDbEnv where
  creds : Bool
  db : DbEnv
  listStatus : Except String Nat
  items : List (String × List (String × Json))

/-- The ensure-collection step of the web service: skipped (false) without
credentials, otherwise the same probe-then-create logic as the function. -/
def ensure_collection_exists_app (env : AppDbEnv) : Bool :=
  if env.creds = false then false else (ensure_collection_exists env.db).1

/-- Fetch all analysis documents: empty on missing credentials, failed
ensure step, non-200 listing, or raised exception; on success each item
value gains a doc-id field. -/
def get_analysis_results (env : AppDbEnv) : List Json :=
  if env.creds = false then []
  else if ensure_collection_exists_app env = false then []
  else
    match env.listStatus with
    | .error _ => []
    | .ok s =>
      if s = 200 then
        env.items.map fun it => Json.obj (it.2 ++ [("doc_id", Json.str it.1)])
      else []

/-- The api-results route: the fetched documents as one JSON array. -/
def api_results (env : AppDbEnv) : Json :=
  .arr (get_analysis_results env)

/-- Dictionary assignment: replace in place when the key exists, else
append. -/
def upsert (acc : List (String × Json)) (k : String) (v : Json) : List (String × Json) :=
  if acc.any fun p => p.1 == k then
    acc.map fun p => if p.1 == k then (k, v) else p
  else acc ++ [(k, v)]

/-- The index-page results dictionary: documents keyed by their non-empty
image name. -/
def index_results (env : AppDbEnv) : List (String × Json) :=
  (get_analysis_results env).foldl
    (fun acc r =>
      match r.lookup "image_name" with
      | some (.str n) => if n ≠ "" then upsert acc n r else acc
      | _ => acc)
    []

/-! ## Shared lemmas -/

theorem firstNonBlank_eq_empty (l : List String) (h : ∀ n ∈ l, pyStrip n = "") :
    firstNonBlank l = "" := by
  induction l with
  | nil => rfl
  | cons n rest ih =>
    have hn : pyStrip n = "" := h n (List.mem_cons_self n rest)
    rw [firstNonBlank, if_neg]
    · exact ih fun m hm => h m (List.mem_cons_of_mem n hm)
    · intro hc
      exact hc.2 hn

theorem candidate_names_blank (e : Event)
    (h1 : ∀ n ∈ possible_names e, pyStrip n = "")
    (h2 : ∀ s, parse_object_from_resource_id (resource_id_of e) = some s → pyStrip s = "") :
    ∀ n ∈ candidate_names e, pyStrip n = "" := by
  intro n hn
  rw [candidate_names] at hn
  by_cases hc : resource_id_of e ≠ "" ∧ pythonAnyStr (possible_names e) = false
  · rw [if_pos hc] at hn
    cases hp : parse_object_from_resource_id (resource_id_of e) with
    | none => rw [hp] at hn; exact h1 n hn
    | some s =>
      rw [hp] at hn
      rcases List.mem_append.mp hn with hm | hm
      · exact h1 n hm
      · rw [List.mem_singleton.mp hm]
        exact h2 s hp
  · rw [if_neg hc] at hn
    exact h1 n hn

theorem object_name_of_blank (e : Event)
    (h1 : ∀ n ∈ possible_names e, pyStrip n = "")
    (h2 : ∀ s, parse_object_from_resource_id (resource_id_of e) = some s → pyStrip s = "") :
    object_name_of e = "" :=
  firstNonBlank_eq_empty _ (candidate_names_blank e h1 h2)

theorem handler_client_error (e : Event) (env : FnEnv)
    (hty : e.eventType.getD "" = eventTypeCreateObject)
    (h : object_name_of e = "" ∨ bucket_name_of e = "") :
    handler (some e) env = (.clientError "Missing object information", []) := by
  rcases h with h | h <;>
    simp [handler, hty, h]

theorem outcome_status_cases (o : Outcome) :
    o.status = 200 ∨ o.status = 400 ∨ o.status = 500 := by
  cases o <;> simp [Outcome.status]

/-! ## Concrete inputs used by the claim theorems -/

/-- The concrete scenario of the spec: bucket and namespace in
additionalDetails, the object name derivable only from the composite
resourceId (with its documented leading slash). -/
def c1Event : Event :=
  { eventType := some eventTypeCreateObject
  , data :=
    { additionalDetails :=
      { objectName := none, bucketName := some "b1", namespaceName := some "ns1" }
    , objectName := none
    , resourceName := none
    , resourceId := some "/n/ns1/b/b1/o/cat.jpg" }
  , resourceName := none
  , objectName := none
  , resourceId := none }

/-- An event carrying no object-name information anywhere. -/
def c2Event : Event :=
  { eventType := some eventTypeCreateObject
  , data :=
    { additionalDetails :=
      { objectName := none, bucketName := some "b1", namespaceName := none }
    , objectName := none
    , resourceName := none
    , resourceId := none }
  , resourceName := none
  , objectName := none
  , resourceId := none }

/-- An event whose object name is a direct field but whose bucket name
occurs only inside the composite resourceId. -/
def c8Event : Event :=
  { eventType := some eventTypeCreateObject
  , data :=
    { additionalDetails :=
      { objectName := none, bucketName := none, namespaceName := none }
    , objectName := some "cat.jpg"
    , resourceName := none
    , resourceId := some "n/ns1/b/b1/o/cat.jpg" }
  , resourceName := none
  , objectName := none
  , resourceId := none }

/-- A fully healthy environment for the function handler. -/
def fnEnvDefault : FnEnv :=
  { dbUsername := "admin"
  , dbPassword := "pw"
  , ociInit := .ok ()
  , visionCall := .ok []
  , db := { probeStatus := .ok 200, createStatus := .ok 200, insertStatus := .ok 201 }
  , now := "2026-10-12T00:00:00" }

/-! ## Claim theorems -/

/-- C1: the claim states that for the concrete spec scenario, whose only
source of the object name is the composite resourceId of the documented
form with a leading slash, the handler resolves object cat.jpg and bucket
b1 and proceeds past event parsing. The code contradicts this (and its
own comment documenting the resourceId format): splitting the documented
form on slash puts the bucket, not the letter o, at index 4, so the parse
never fires, the resolved object name is empty, and the handler returns
the 400 client-error outcome with no external calls. The last conjunct
shows the off-by-one: the same resourceId without its leading slash would
parse. -/
theorem C1_resource_id_parse_never_fires :
    parse_object_from_resource_id "/n/ns1/b/b1/o/cat.jpg" = none ∧
    object_name_of c1Event = "" ∧
    bucket_name_of c1Event = "b1" ∧
    (∀ env : FnEnv,
      handler (some c1Event) env = (Outcome.clientError "Missing object information", [])) ∧
    parse_object_from_resource_id "n/ns1/b/b1/o/cat.jpg" = some "cat.jpg" := by
  refine ⟨by decide, by decide, rfl, ?_, by decide⟩
  intro env
  exact handler_client_error c1Event env rfl (Or.inl (by decide))

/-- C2: for a storage-object-created event in which every candidate field
strips to empty and the resourceId parse yields nothing non-blank, or in
which the bucket name is empty, the handler returns the 400 client-error
outcome and performs no external call at all (no vision request, no
document-store write). -/
theorem C2_unresolvable_event_client_error_no_writes (e : Event) (env : FnEnv)
    (hty : e.eventType.getD "" = eventTypeCreateObject)
    (h : ((∀ n ∈ possible_names e, pyStrip n = "") ∧
          (∀ s, parse_object_from_resource_id (resource_id_of e) = some s → pyStrip s = "")) ∨
         bucket_name_of e = "") :
    (handler (some e) env).1 = Outcome.clientError "Missing object information" ∧
    (handler (some e) env).2 = [] := by
  have hob : object_name_of e = "" ∨ bucket_name_of e = "" := by
    rcases h with ⟨h1, h2⟩ | hb
    · exact Or.inl (object_name_of_blank e h1 h2)
    · exact Or.inr hb
  rw [handler_client_error e env hty hob]
  exact ⟨rfl, rfl⟩

theorem C2_unresolvable_event_client_error_no_writes_witness :
    (handler (some c2Event) fnEnvDefault).1 = Outcome.clientError "Missing object information" ∧
    (handler (some c2Event) fnEnvDefault).2 = [] :=
  C2_unresolvable_event_client_error_no_writes c2Event fnEnvDefault rfl
    (Or.inl ⟨by decide, fun s hs => by
      rw [show parse_object_from_resource_id (resource_id_of c2Event) = none by decide] at hs
      cases hs⟩)

/-- C5: every invocation of the handler, over every payload (including
the unparseable one, modelled as none) and every environment of external
outcomes, produces exactly one terminal response whose status is 200
(success or ignored event), 400 (client error), or 500 (server error);
in particular the unparseable payload yields the structured internal-error
response rather than a propagated exception. -/
theorem C5_handler_single_terminal_outcome :
    (∀ (p : Option Event) (env : FnEnv),
      (handler p env).1.status = 200 ∨ (handler p env).1.status = 400 ∨
        (handler p env).1.status = 500) ∧
    (∀ env : FnEnv, handler none env = (Outcome.serverError "Internal function error", [])) := by
  refine ⟨fun p env => outcome_status_cases _, fun env => rfl⟩

/-- C8: the bucket name and namespace are read exclusively from
additionalDetails: they are invariant under any change of the event that
preserves additionalDetails; and for any storage-object-created event
whose additionalDetails bucket name is empty the handler returns the 400
client-error outcome with no external calls, even on the concrete event
whose object name is resolvable (cat.jpg) and whose bucket occurs inside
the resourceId only. -/
theorem C8_bucket_only_from_additional_details :
    (∀ e1 e2 : Event, e1.data.additionalDetails = e2.data.additionalDetails →
      bucket_name_of e1 = bucket_name_of e2 ∧ namespace_of e1 = namespace_of e2) ∧
    (∀ (e : Event) (env : FnEnv), e.eventType.getD "" = eventTypeCreateObject →
      bucket_name_of e = "" →
      handler (some e) env = (Outcome.clientError "Missing object information", [])) ∧
    object_name_of c8Event = "cat.jpg" ∧
    (∀ env : FnEnv,
      handler (some c8Event) env = (Outcome.clientError "Missing object information", [])) := by
  refine ⟨?_, ?_, by decide, ?_⟩
  · intro e1 e2 h
    exact ⟨by simp [bucket_name_of, h], by simp [namespace_of, h]⟩
  · intro e env hty hb
    exact handler_client_error e env hty (Or.inr hb)
  · intro env
    exact handler_client_error c8Event env rfl (Or.inr rfl)

theorem C8_bucket_only_from_additional_details_witness :
    handler (some c8Event) fnEnvDefault = (Outcome.clientError "Missing object information", []) :=
  C8_bucket_only_from_additional_details.2.1 c8Event fnEnvDefault rfl rfl

/-! ## C7: ensure-collection behaviour -/

/-- A probe answering 409, the conflict status a collection existing with
different metadata produces. -/
def c7ConflictEnv : DbEnv :=
  { probeStatus := .ok 409, createStatus := .ok 201, insertStatus := .ok 201 }

/-- C7 counterexample: the claim states that a collection-exists-with-
different-metadata condition is tolerated by dropping and recreating the
collection. The code does no such thing: on any probe status other than
200 or 404 (here 409, the conflict answer) the ensure step fails closed,
returning false and issuing no request at all, in particular no drop and
no recreate. -/
theorem C7_conflict_fails_closed :
    (ensure_collection_exists c7ConflictEnv).1 = false ∧
    (ensure_collection_exists c7ConflictEnv).2 = [] :=
  ⟨rfl, rfl⟩

/-- C7 as amended: probing 200 succeeds with no further request; probing
404 creates the collection with the fixed schema (string key column with
UUID assignment, structured BLOB/OSON content column) and succeeds
exactly when the create answers 200 or 201; every other probe status, and
a raised probe exception, fails closed with no drop or recreate. -/
theorem C7_ensure_collection_behavior (env : DbEnv) :
    (env.probeStatus = .ok 200 → ensure_collection_exists env = (true, [])) ∧
    (env.probeStatus = .ok 404 →
      (ensure_collection_exists env).2 = [FnAction.createCollection collection_metadata] ∧
      ((ensure_collection_exists env).1 = true ↔
        env.createStatus = .ok 200 ∨ env.createStatus = .ok 201)) ∧
    (∀ s, env.probeStatus = .ok s → s ≠ 200 → s ≠ 404 →
      ensure_collection_exists env = (false, [])) ∧
    (∀ m, env.probeStatus = .error m → ensure_collection_exists env = (false, [])) ∧
    collection_metadata.keyColumn.sqlType = "VARCHAR2" ∧
    collection_metadata.keyColumn.assignmentMethod = "UUID" ∧
    collection_metadata.contentColumn.sqlType = "BLOB" ∧
    collection_metadata.contentColumn.jsonFormat = "OSON" := by
  refine ⟨?_, ?_, ?_, ?_, rfl, rfl, rfl, rfl⟩
  · intro h
    simp [ensure_collection_exists, h]
  · intro h
    cases hc : env.createStatus with
    | error m => simp [ensure_collection_exists, h, hc]
    | ok c =>
      constructor
      · simp [ensure_collection_exists, h, hc]
      · simp [ensure_collection_exists, h, hc]
  · intro s h h200 h404
    simp [ensure_collection_exists, h, h200, h404]
  · intro m h
    simp [ensure_collection_exists, h]

/-- A probe answering 404 with a successful create. -/
def c7CreateEnv : DbEnv :=
  { probeStatus := .ok 404, createStatus := .ok 201, insertStatus := .ok 201 }

theorem C7_ensure_collection_behavior_witness :
    (ensure_collection_exists c7CreateEnv).2 = [FnAction.createCollection collection_metadata] ∧
    ((ensure_collection_exists c7CreateEnv).1 = true ↔
      c7CreateEnv.createStatus = .ok 200 ∨ c7CreateEnv.createStatus = .ok 201) :=
  (C7_ensure_collection_behavior c7CreateEnv).2.1 rfl

/-! ## C4: document shape -/

theorem normalizeAll_mem (objs : List ImageObject) (entries : List Json)
    (h : normalizeAll objs = .ok entries) :
    ∀ j ∈ entries, ∃ o ∈ objs, normalizeObject o = .ok j := by
  induction objs generalizing entries with
  | nil =>
    simp only [normalizeAll, Except.ok.injEq] at h
    subst h
    intro j hj
    exact absurd hj (List.not_mem_nil j)
  | cons o rest ih =>
    cases ho : normalizeObject o with
    | error m => simp [normalizeAll, ho] at h
    | ok jo =>
      cases hr : normalizeAll rest with
      | error m => simp [normalizeAll, ho, hr] at h
      | ok js =>
        simp only [normalizeAll, ho, hr, Except.ok.injEq] at h
        subst h
        intro j hj
        rcases List.mem_cons.mp hj with h1 | h1
        · exact ⟨o, List.mem_cons_self o rest, h1 ▸ ho⟩
        · obtain ⟨o2, ho2, hno⟩ := ih js hr j h1
          exact ⟨o2, List.mem_cons_of_mem o ho2, hno⟩

theorem normalizeObject_shape (o : ImageObject) (j : Json)
    (h : normalizeObject o = .ok j)
    (hc : 0 ≤ o.confidence ∧ o.confidence ≤ 1) :
    j.fieldNames = ["name", "confidence", "bounding_box"] ∧
    (∃ q, j.lookup "confidence" = some (.num q) ∧ 0 ≤ q ∧ q ≤ 1) ∧
    (∃ bb, j.lookup "bounding_box" = some bb ∧
      bb.fieldNames = ["left", "top", "width", "height"]) := by
  rcases hv0 : o.boundingPolygon.normalizedVertices.get? 0 with _ | v0 <;>
    rcases hv2 : o.boundingPolygon.normalizedVertices.get? 2 with _ | v2 <;>
      simp only [normalizeObject, hv0, hv2, Except.ok.injEq] at h <;>
        try exact absurd h (by simp)
  subst h
  exact ⟨rfl, ⟨o.confidence, rfl, hc.1, hc.2⟩, ⟨_, rfl, rfl⟩⟩

theorem ensure_collection_actions (env : DbEnv) :
    (ensure_collection_exists env).2 = [] ∨
    (ensure_collection_exists env).2 = [FnAction.createCollection collection_metadata] := by
  cases h : env.probeStatus with
  | error m => left; simp [ensure_collection_exists, h]
  | ok s =>
    by_cases h200 : s = 200
    · left; simp [ensure_collection_exists, h, h200]
    · by_cases h404 : s = 404
      · right
        cases hc : env.createStatus with
        | error m => simp [ensure_collection_exists, h, h200, h404, hc]
        | ok c => simp [ensure_collection_exists, h, h200, h404, hc]
      · left; simp [ensure_collection_exists, h, h200, h404]

/-- One detected object with an axis-aligned box from vertex 0 to
vertex 2. -/
def c4Objs : List ImageObject :=
  [ { name := "cat"
    , confidence := 9/10
    , boundingPolygon :=
      { normalizedVertices :=
        [ { x := 0, y := 0 }
        , { x := 1/2, y := 0 }
        , { x := 1/2, y := 1/2 }
        , { x := 0, y := 1/2 } ] } } ]

/-- The document entry the normalization produces for that object. -/
def c4Entry : Json :=
  Json.obj
    [ ("name", Json.str "cat")
    , ("confidence", Json.num (9/10))
    , ("bounding_box", Json.obj
        [ ("left", Json.num 0)
        , ("top", Json.num 0)
        , ("width", Json.num |(1/2 : ℚ) - 0|)
        , ("height", Json.num |(1/2 : ℚ) - 0|) ]) ]

/-- An event resolving object cat.jpg in bucket b1 directly. -/
def c4Event : Event :=
  { eventType := some eventTypeCreateObject
  , data :=
    { additionalDetails :=
      { objectName := some "cat.jpg", bucketName := some "b1", namespaceName := some "ns1" }
    , objectName := none
    , resourceName := none
    , resourceId := none }
  , resourceName := none
  , objectName := none
  , resourceId := none }

/-- The healthy environment whose vision call detects the one object. -/
def c4Env : FnEnv :=
  { dbUsername := "admin"
  , dbPassword := "pw"
  , ociInit := .ok ()
  , visionCall := .ok c4Objs
  , db := { probeStatus := .ok 200, createStatus := .ok 200, insertStatus := .ok 201 }
  , now := "2026-10-12T00:00:00" }

/-- The document the handler inserts on that invocation. -/
def c4Doc : Json :=
  mkDocument "cat.jpg" "b1" "2026-10-12T00:00:00" (Json.obj [("objects", Json.arr [c4Entry])])

/-- C4 counterexample: the claim states that the analysis-results field
of the persisted document is a list of detected-object entries. On a
concrete successful invocation the handler inserts exactly one document,
and its analysis-results field is not a JSON array: it is an object with
the single key objects holding that list. -/
theorem C4_analysis_results_not_a_list :
    handler (some c4Event) c4Env =
      (Outcome.success "cat.jpg" "b1" 1,
       [FnAction.visionAnalyze "ns1" "b1" "cat.jpg", FnAction.insertDoc c4Doc]) ∧
    (Json.lookup "analysis_results" c4Doc).map Json.isArr = some false ∧
    Json.lookup "analysis_results" c4Doc =
      some (Json.obj [("objects", Json.arr [c4Entry])]) :=
  ⟨rfl, rfl, rfl⟩

/-- C4 as amended: the persisted document has exactly the four fields
image_name, bucket_name, timestamp and analysis_results, bound to the
resolved object name, the resolved bucket name, the UTC time string with
a Z suffix, and an object holding under the key objects the list of
detected-object entries; each entry has exactly the fields name,
confidence and bounding_box (with left, top, width, height), the stored
confidence staying in 0 to 1 whenever the vision confidences are; and
every document the store step inserts is exactly that document. -/
theorem C4_document_shape (img bkt now : String) (objs : List ImageObject)
    (entries : List Json) (env : DbEnv) (ar : Json)
    (hn : normalizeAll objs = .ok entries)
    (har : ar = Json.obj [("objects", Json.arr entries)])
    (hc : ∀ o ∈ objs, 0 ≤ o.confidence ∧ o.confidence ≤ 1) :
    Json.fieldNames (mkDocument img bkt now ar) =
      ["image_name", "bucket_name", "timestamp", "analysis_results"] ∧
    Json.lookup "image_name" (mkDocument img bkt now ar) = some (Json.str img) ∧
    Json.lookup "bucket_name" (mkDocument img bkt now ar) = some (Json.str bkt) ∧
    Json.lookup "timestamp" (mkDocument img bkt now ar) = some (Json.str (now ++ "Z")) ∧
    Json.lookup "analysis_results" (mkDocument img bkt now ar) =
      some (Json.obj [("objects", Json.arr entries)]) ∧
    (∀ j ∈ entries,
      j.fieldNames = ["name", "confidence", "bounding_box"] ∧
      (∃ q, j.lookup "confidence" = some (.num q) ∧ 0 ≤ q ∧ q ≤ 1) ∧
      (∃ bb, j.lookup "bounding_box" = some bb ∧
        bb.fieldNames = ["left", "top", "width", "height"])) ∧
    (∀ d, FnAction.insertDoc d ∈ (store_analysis_result_via_rest img bkt ar env now).2 →
      d = mkDocument img bkt now ar) := by
  subst har
  refine ⟨rfl, rfl, rfl, rfl, rfl, ?_, ?_⟩
  · intro j hj
    obtain ⟨o, ho, hno⟩ := normalizeAll_mem objs entries hn j hj
    exact normalizeObject_shape o j hno (hc o ho)
  · intro d hd
    by_cases hec : (ensure_collection_exists env).1 = false
    · rcases ensure_collection_actions env with he | he <;>
        simp [store_analysis_result_via_rest, hec, he] at hd
    · cases hins : env.insertStatus with
      | error m =>
        rcases ensure_collection_actions env with he | he <;>
          simp [store_analysis_result_via_rest, hec, he, hins] at hd <;>
            exact hd
      | ok s =>
        rcases ensure_collection_actions env with he | he <;>
          simp [store_analysis_result_via_rest, hec, he, hins] at hd <;>
            exact hd

theorem C4_document_shape_witness :
    Json.fieldNames (mkDocument "cat.jpg" "b1" "2026-10-12T00:00:00"
        (Json.obj [("objects", Json.arr [c4Entry])])) =
      ["image_name", "bucket_name", "timestamp", "analysis_results"] :=
  (C4_document_shape "cat.jpg" "b1" "2026-10-12T00:00:00" c4Objs [c4Entry]
    { probeStatus := .ok 200, createStatus := .ok 200, insertStatus := .ok 201 }
    (Json.obj [("objects", Json.arr [c4Entry])]) rfl rfl
    (by
      intro o ho
      rw [c4Objs] at ho
      rcases List.mem_singleton.mp ho with rfl
      constructor <;> norm_num)).1

/-! ## C10 and C3: the upload extension gate -/

theorem takeWhile_append_all_sat (p : Char → Bool) (l1 l2 : List Char) (a : Char)
    (h1 : ∀ x ∈ l1, p x = true) (ha : p a = false) :
    (l1 ++ a :: l2).takeWhile p = l1 := by
  induction l1 with
  | nil => simp [List.takeWhile_cons, ha]
  | cons c t ih =>
    have hc : p c = true := h1 c (List.mem_cons_self c t)
    simp [List.takeWhile_cons, hc,
      ih fun x hx => h1 x (List.mem_cons_of_mem c hx)]

theorem extAfterLastDot_append (s e : List Char) (he : '.' ∉ e) :
    extAfterLastDot (s ++ '.' :: e) = e := by
  unfold extAfterLastDot
  rw [List.reverse_append, List.reverse_cons, List.append_assoc,
    List.singleton_append,
    takeWhile_append_all_sat _ e.reverse s.reverse '.'
      (fun x hx => by
        have hne : x ≠ '.' := fun hxe => he (hxe ▸ List.mem_reverse.mp hx)
        simp [hne])
      (by simp),
    List.reverse_reverse]

theorem allowed_file_iff (f : String) :
    allowed_file f = true ↔
      '.' ∈ f.data ∧ (extAfterLastDot f.data).map Char.toLower ∈ allowed_extensions := by
  simp [allowed_file]

/-- C10: the extension check looks at the substring after the last dot,
case-insensitively: for every decomposition of the filename as some
prefix, a dot, and a dot-free tail, acceptance is exactly membership of
the lowercased tail in the allow-list; a filename with no dot at all is
always rejected; and on the concrete names photo.PNG and a.b.JpG the
check accepts while the dotless name png is rejected. -/
theorem C10_extension_after_last_dot :
    (∀ s e : List Char, '.' ∉ e →
      allowed_file (String.mk (s ++ '.' :: e)) =
        decide (e.map Char.toLower ∈ allowed_extensions)) ∧
    (∀ f : String, '.' ∉ f.data → allowed_file f = false) ∧
    allowed_file "photo.PNG" = true ∧
    allowed_file "a.b.JpG" = true ∧
    allowed_file "png" = false := by
  refine ⟨?_, ?_, by decide, by decide, by decide⟩
  · intro s e he
    unfold allowed_file
    rw [show (String.mk (s ++ '.' :: e)).data = s ++ '.' :: e from rfl,
      extAfterLastDot_append s e he,
      decide_eq_true
        (show '.' ∈ s ++ '.' :: e from List.mem_append_right s (List.mem_cons_self '.' e)),
      Bool.true_and]
  · intro f hf
    unfold allowed_file
    rw [decide_eq_false hf, Bool.false_and]

theorem C10_extension_after_last_dot_witness :
    allowed_file (String.mk ("pic".data ++ '.' :: "PNG".data)) =
      decide ("PNG".data.map Char.toLower ∈ allowed_extensions) :=
  C10_extension_after_last_dot.1 "pic".data "PNG".data (by decide)

/-- C3: on a well-formed upload request (file part present, non-empty
filename), a filename whose lowercased last-dot extension is in the
allow-list leads, when the storage client is initialized, to exactly one
put-object call carrying the sanitized filename; a filename with any
other extension (or no dot) is rejected with the invalid-file-type
message and no storage call at all. -/
theorem C3_upload_extension_gate (req : UploadRequest) (env : UploadEnv)
    (hpart : req.hasFilePart = true) (hne : req.filename ≠ "") :
    (('.' ∈ req.filename.data ∧
        (extAfterLastDot req.filename.data).map Char.toLower ∈ allowed_extensions) →
      env.storageReady = true →
      (upload_file req env).2 = [AppAction.putObject (env.secureFilename req.filename)]) ∧
    (('.' ∉ req.filename.data ∨
        (extAfterLastDot req.filename.data).map Char.toLower ∉ allowed_extensions) →
      (upload_file req env).1 = UploadMsg.invalidFileType ∧
      (upload_file req env).2 = []) := by
  constructor
  · intro hext hready
    have hall : allowed_file req.filename = true := (allowed_file_iff req.filename).mpr hext
    cases hput : env.putObjectResult with
    | ok u => simp [upload_file, hpart, hne, hall, hready, hput]
    | error m => simp [upload_file, hpart, hne, hall, hready, hput]
  · intro hext
    have hnot : ¬ ('.' ∈ req.filename.data ∧
        (extAfterLastDot req.filename.data).map Char.toLower ∈ allowed_extensions) := by
      rcases hext with h | h
      · exact fun hc => h hc.1
      · exact fun hc => h hc.2
    have hall : allowed_file req.filename = false := by
      cases h : allowed_file req.filename with
      | false => rfl
      | true => exact absurd ((allowed_file_iff _).mp h) hnot
    simp [upload_file, hpart, hne, hall]

def c3Req : UploadRequest :=
  { hasFilePart := true, filename := "cat.png" }

def c3Env : UploadEnv :=
  { storageReady := true, putObjectResult := .ok (), secureFilename := id }

theorem C3_upload_extension_gate_witness :
    (upload_file c3Req c3Env).2 = [AppAction.putObject "cat.png"] :=
  (C3_upload_extension_gate c3Req c3Env rfl (by decide)).1 ⟨by decide, by decide⟩ rfl

/-! ## C6: delete route -/

theorem deleteDocsLoop_all_ok (env : DeleteEnv)
    (hdel : ∀ i, ∃ s, env.deleteDocStatus i = .ok s) :
    ∀ (ids : List String) (acc : Nat),
      ∃ n, deleteDocsLoop env ids acc = (.ok n, ids.map AppAction.deleteDoc) := by
  intro ids
  induction ids with
  | nil => exact fun acc => ⟨acc, rfl⟩
  | cons i rest ih =>
    intro acc
    obtain ⟨s, hs⟩ := hdel i
    by_cases h2 : s = 200 ∨ s = 204
    · obtain ⟨n, hn⟩ := ih (acc + 1)
      exact ⟨n, by simp [deleteDocsLoop, hs, h2, hn]⟩
    · obtain ⟨n, hn⟩ := ih acc
      exact ⟨n, by simp [deleteDocsLoop, hs, h2, hn]⟩

theorem delete_analysis_acts (f : String) (env : DeleteEnv)
    (hcred : env.dbCreds = true) (hlist : env.listStatus = .ok 200)
    (hdel : ∀ i, ∃ s, env.deleteDocStatus i = .ok s) :
    (delete_analysis_by_filename f env).2 =
      ((env.docs.filter fun d => d.image_name == f).map AnalysisDoc.id).map
        AppAction.deleteDoc := by
  obtain ⟨n, hn⟩ :=
    deleteDocsLoop_all_ok env hdel
      ((env.docs.filter fun d => d.image_name == f).map AnalysisDoc.id) 0
  simp [delete_analysis_by_filename, hcred, hlist, hn]

/-- A delete request in which the storage deletion raises (as the client
does on a missing object) while a matching analysis document exists. -/
def c6Env : DeleteEnv :=
  { storageReady := true
  , deleteObjectResult := .error "ServiceError 404"
  , dbCreds := true
  , listStatus := .ok 200
  , docs := [{ id := "id1", image_name := "cat.jpg" }]
  , deleteDocStatus := fun _ => .ok 200 }

/-- C6 counterexample: the claim states that the document deletion is
attempted independently of whether the storage deletion succeeds or
fails. When the storage deletion raises, the route jumps to its except
branch: it reports a single error message and never attempts to delete
the matching analysis document, even though one exists and its deletion
would succeed. -/
theorem C6_db_delete_not_independent :
    (delete_file "cat.jpg" c6Env).1 = DeleteMsg.errorDeleting ∧
    (delete_file "cat.jpg" c6Env).2 = [AppAction.deleteObject "cat.jpg"] ∧
    (c6Env.docs.filter fun d => d.image_name == "cat.jpg") =
      [{ id := "id1", image_name := "cat.jpg" }] ∧
    c6Env.deleteDocStatus "id1" = .ok 200 :=
  ⟨rfl, rfl, rfl, rfl⟩

/-- C6 as amended: when the storage deletion does not raise (it succeeds,
or is skipped because the storage client is uninitialized) and the store
listing succeeds, the route attempts to delete every analysis document
whose image name equals the filename; the outcome message is the
feedback of the pair of storage-deleted flag and deleted-record count,
whose four cases are pairwise distinct; and a repeat delete, finding no
matching documents after a successful storage deletion, reports the
storage-deleted-no-records message rather than an error. -/
theorem C6_delete_behavior (f : String) (env : DeleteEnv)
    (hst : env.storageReady = false ∨ env.deleteObjectResult = .ok ())
    (hcred : env.dbCreds = true)
    (hlist : env.listStatus = .ok 200)
    (hdel : ∀ i, ∃ s, env.deleteDocStatus i = .ok s) :
    (∀ d ∈ env.docs, d.image_name = f →
      AppAction.deleteDoc d.id ∈ (delete_file f env).2) ∧
    ((env.docs.filter fun d => d.image_name == f) = [] → env.storageReady = true →
      (delete_file f env).1 = DeleteMsg.deletedStorageNoRecords) ∧
    (delete_file f env).1 =
      deleteFeedback env.storageReady (delete_analysis_by_filename f env).1 ∧
    (∀ n : Nat,
      [DeleteMsg.deletedBoth n, DeleteMsg.deletedStorageNoRecords,
        DeleteMsg.deletedDbOnly n, DeleteMsg.couldNotFullyDelete].Nodup) := by
  have hacts := delete_analysis_acts f env hcred hlist hdel
  have hmem : ∀ d ∈ env.docs, d.image_name = f →
      AppAction.deleteDoc d.id ∈ (delete_analysis_by_filename f env).2 := by
    intro d hd hdf
    rw [hacts]
    exact List.mem_map_of_mem _
      (List.mem_map_of_mem _ (List.mem_filter.mpr ⟨hd, by simp [hdf]⟩))
  rcases hst with hst | hst
  · refine ⟨?_, ?_, ?_, ?_⟩
    · intro d hd hdf
      simp only [delete_file, hst, Bool.false_eq_true, if_false]
      exact hmem d hd hdf
    · intro _ hready
      rw [hready] at hst
      cases hst
    · simp [delete_file, hst]
    · intro n
      simp [List.nodup_cons]
  · cases hready : env.storageReady with
    | false =>
      refine ⟨?_, ?_, ?_, ?_⟩
      · intro d hd hdf
        simp only [delete_file, hready, Bool.false_eq_true, if_false]
        exact hmem d hd hdf
      · intro _ h
        exact absurd h (by simp [hready])
      · simp [delete_file, hready]
      · intro n
        simp [List.nodup_cons]
    | true =>
      refine ⟨?_, ?_, ?_, ?_⟩
      · intro d hd hdf
        simp only [delete_file, hready, if_true, hst]
        exact List.mem_cons_of_mem _ (hmem d hd hdf)
      · intro hfil _
        have hzero : delete_analysis_by_filename f env =
            (0, ((env.docs.filter fun d => d.image_name == f).map AnalysisDoc.id).map
              AppAction.deleteDoc) := by
          obtain ⟨n, hn⟩ :=
            deleteDocsLoop_all_ok env hdel
              ((env.docs.filter fun d => d.image_name == f).map AnalysisDoc.id) 0
          rw [hfil] at hn
          simp [delete_analysis_by_filename, hcred, hlist, hfil,
            show deleteDocsLoop env [] 0 = (.ok 0, []) from rfl]
        simp [delete_file, hready, hst, hzero, deleteFeedback]
      · simp [delete_file, hready, hst]
      · intro n
        simp [List.nodup_cons]

/-- A healthy delete environment with one matching document. -/
def c6OkEnv : DeleteEnv :=
  { storageReady := true
  , deleteObjectResult := .ok ()
  , dbCreds := true
  , listStatus := .ok 200
  , docs := [{ id := "id1", image_name := "cat.jpg" }]
  , deleteDocStatus := fun _ => .ok 204 }

theorem C6_delete_behavior_witness :
    AppAction.deleteDoc "id1" ∈ (delete_file "cat.jpg" c6OkEnv).2 :=
  (C6_delete_behavior "cat.jpg" c6OkEnv (Or.inr rfl) rfl rfl
      (fun _ => ⟨204, rfl⟩)).1
    { id := "id1", image_name := "cat.jpg" } (List.mem_singleton.mpr rfl) rfl

/-! ## C9: store failure at the results endpoints -/

/-- A healthy document store holding no documents at all. -/
def emptyStoreEnv : AppDbEnv :=
  { creds := true
  , db := { probeStatus := .ok 200, createStatus := .ok 200, insertStatus := .ok 201 }
  , listStatus := .ok 200
  , items := [] }

/-- C9: on every document-store failure (missing credentials, failed
ensure step, raised exception, or non-200 listing), the results fetch
returns the empty list, the api-results route answers the empty JSON
array — exactly the answer a healthy store with no documents yields, so
the two are indistinguishable there — and the index page results
dictionary is empty, showing images with no analysis indicator. -/
theorem C9_store_failure_indistinguishable (env : AppDbEnv)
    (h : env.creds = false ∨ ensure_collection_exists_app env = false ∨
         (∃ m, env.listStatus = .error m) ∨ (∀ s, env.listStatus = .ok s → s ≠ 200)) :
    get_analysis_results env = [] ∧
    api_results env = Json.arr [] ∧
    api_results env = api_results emptyStoreEnv ∧
    index_results env = [] := by
  have hg : get_analysis_results env = [] := by
    unfold get_analysis_results
    rcases h with h | h | ⟨m, h⟩ | h
    · simp [h]
    · simp [h]
    · simp [h]
    · cases hl : env.listStatus with
      | error m => simp [hl]
      | ok s => simp [hl, h s hl]
  refine ⟨hg, ?_, ?_, ?_⟩
  · simp [api_results, hg]
  · rw [show api_results emptyStoreEnv = Json.arr [] from rfl]
    simp [api_results, hg]
  · simp [index_results, hg]

/-- A store with a document present but no credentials configured. -/
def c9FailEnv : AppDbEnv :=
  { creds := false
  , db := { probeStatus := .ok 200, createStatus := .ok 200, insertStatus := .ok 201 }
  , listStatus := .ok 200
  , items := [("id1", [("image_name", Json.str "cat.jpg")])] }

theorem C9_store_failure_indistinguishable_witness :
    get_analysis_results c9FailEnv = [] ∧
    api_results c9FailEnv = api_results emptyStoreEnv :=
  ⟨(C9_store_failure_indistinguishable c9FailEnv (Or.inl rfl)).1,
   (C9_store_failure_indistinguishable c9FailEnv (Or.inl rfl)).2.2.1⟩
